import Mathlib

/-!
Verification of the multi-tenant authorization core of the class-backend
repository: the Casbin-based service (CasbinService), the YAML policy loader
(PolicyLoader), the selective-persistence adapter (RoleOnlyPostgresAdapter)
and the casbin_rule table schema.

Rules are modelled exactly as the Go code handles them: lists of strings.
The casbin library itself is not part of the repository; the few library
entry points the service uses (Enforce, AddGroupingPolicy, RemoveGroupingPolicy,
AddPolicy, ClearPolicy, HasGroupingPolicy, GetGroupingPolicy) are modelled
from the specification and from the matcher recorded in
docs/authorization-architecture.md, as noted on each definition.
-/

namespace Authz

/-- A Casbin rule exactly as the Go code handles it: a list of string values.
A compiled policy fact carries four values [role, resource, action, tenant];
a role assignment carries three values [userID, role, tenantID]. -/
abbrev Rule := List String

/-- Errors surfaced by the authorization code. The Go code wraps every failure
in a single InfrastructureError carrying a message; the constructors here
mirror the distinct error sites of the source. -/
inductive AuthError where
  | emptyParameters (msg : String)
  | roleNotAvailable (role : String)
  | emptyTenantsList
  | configNotLoaded
  | constraintViolation
  | storage (msg : String)
deriving Repr, DecidableEq

/-- Modelled from the spec: section 7 classifies empty identifiers, an unknown
role on assignment and an empty tenant list on reload as InvalidArgument. -/
def AuthError.isInvalidArgument : AuthError → Bool
  | .emptyParameters _ => true
  | .roleNotAvailable _ => true
  | .emptyTenantsList => true
  | _ => false

/-- One row of the casbin_rule table (migration 20250818013945).  The id SERIAL
surrogate key is omitted; the six value columns are modelled as String because
insertRoleAssignment always binds a string (padding with "") and never NULL. -/
structure CasbinRow where
  ptype : String
  v0 : String
  v1 : String
  v2 : String
  v3 : String
  v4 : String
  v5 : String
deriving Repr, DecidableEq

/-- The columns covered by the casbin_rule_unique constraint:
UNIQUE (ptype, v0, v1, v2, v3). -/
def rowKey (r : CasbinRow) : String × String × String × String × String :=
  (r.ptype, r.v0, r.v1, r.v2, r.v3)

/-- The durable casbin_rule table contents. -/
structure DB where
  rows : List CasbinRow
deriving Repr, DecidableEq

/-- The SQL predicate "ptype LIKE 'g%'" used by the adapter: the ptype begins
with the character g. -/
def isGroupPtype (s : String) : Bool :=
  match s.data with
  | [] => false
  | c :: _ => c == 'g'

/-- RoleOnlyPostgresAdapter.insertRoleAssignment builds the seven bound values:
ptype plus v0..v5, padding the columns beyond the rule's length with the empty
string. -/
def mkRow (ptype : String) (rule : Rule) : CasbinRow :=
  { ptype := ptype
    v0 := rule.getD 0 ""
    v1 := rule.getD 1 ""
    v2 := rule.getD 2 ""
    v3 := rule.getD 3 ""
    v4 := rule.getD 4 ""
    v5 := rule.getD 5 "" }

/-- RoleOnlyPostgresAdapter.insertRoleAssignment: a plain INSERT with no
ON CONFLICT clause, so Postgres rejects a row whose (ptype, v0, v1, v2, v3)
key is already present (constraint casbin_rule_unique); that is the database
failure modelled here. -/
def insertRoleAssignment (db : DB) (ptype : String) (rule : Rule) :
    DB × Option AuthError :=
  let row := mkRow ptype rule
  if db.rows.any (fun r => decide (rowKey r = rowKey row)) then
    (db, some .constraintViolation)
  else
    (⟨db.rows ++ [row]⟩, none)

/-- RoleOnlyPostgresAdapter.AddPolicy: any record whose section is not "g" is
silently ignored (nil error, nothing written); a grouping record is inserted. -/
def adapterAddPolicy (db : DB) (sec ptype : String) (rule : Rule) :
    DB × Option AuthError :=
  if sec = "g" then insertRoleAssignment db ptype rule
  else (db, none)

/-- The value column v_i of a row, matching the v0..v5 naming of the table. -/
def rowVal (r : CasbinRow) : Nat → String
  | 0 => r.v0
  | 1 => r.v1
  | 2 => r.v2
  | 3 => r.v3
  | 4 => r.v4
  | _ => r.v5

/-- The WHERE clause RoleOnlyPostgresAdapter.RemovePolicy builds: ptype = $1
plus one condition v_i = rule[i] for every provided rule value with i < 6. -/
def ruleMatchesRow (ptype : String) (rule : Rule) (r : CasbinRow) : Bool :=
  r.ptype == ptype &&
    (List.range (min rule.length 6)).all (fun i => rowVal r i == rule.getD i "")

/-- RoleOnlyPostgresAdapter.RemovePolicy: any record whose section is not "g"
is silently ignored; otherwise the matching rows are deleted. -/
def adapterRemovePolicy (db : DB) (sec ptype : String) (rule : Rule) :
    DB × Option AuthError :=
  if sec = "g" then (⟨db.rows.filter (fun r => !(ruleMatchesRow ptype rule r))⟩, none)
  else (db, none)

/-- The DELETE statement of RoleOnlyPostgresAdapter.SavePolicy:
DELETE FROM casbin_rule WHERE ptype LIKE 'g%'. -/
def deleteGroupRows (db : DB) : DB :=
  ⟨db.rows.filter (fun r => !(isGroupPtype r.ptype))⟩

/-- The insert loop of RoleOnlyPostgresAdapter.SavePolicy: one separate INSERT
statement per grouping rule of the model's g section.  Statements are issued
one by one against the shared connection, not inside a transaction; the
parameter failIn injects an external storage failure (connectivity loss or
timeout) before the statement that many successful statements later: some 0
fails the next statement, none never fails. -/
def saveInserts (db : DB) (failIn : Option Nat) :
    List (String × Rule) → DB × Option AuthError
  | [] => (db, none)
  | (ptype, rule) :: rest =>
    if failIn = some 0 then
      (db, some (.storage "failed to save role assignment"))
    else
      match insertRoleAssignment db ptype rule with
      | (db1, none) => saveInserts db1 (failIn.map (· - 1)) rest
      | (db1, some _) => (db1, some (.storage "failed to save role assignment"))

/-- RoleOnlyPostgresAdapter.SavePolicy: clears all grouping rows with one
DELETE, then reinserts every grouping rule of the model's g section with
separate INSERT statements.  No transaction is opened: each statement executes
directly on the db handle.  failIn injects an external storage failure before
the statement that many successful statements later. -/
def savePolicy (db : DB) (gSection : List (String × Rule)) (failIn : Option Nat) :
    DB × Option AuthError :=
  if failIn = some 0 then
    (db, some (.storage "failed to clear existing role assignments"))
  else
    saveInserts (deleteGroupRows db) (failIn.map (· - 1)) gSection

/-- The in-memory Casbin model state: compiled policy facts (section p) and
role assignments (section g). -/
structure Enforcer where
  policies : List Rule
  groupings : List Rule
deriving Repr, DecidableEq

/-- PolicyLoader.convertToCasbinWildcard: the human-readable token "all"
becomes the Casbin wildcard "*"; every other token is unchanged. -/
def convertToCasbinWildcard (value : String) : String :=
  if value = "all" then "*" else value

/-- Modelled from the spec: the grouping predicate g(sub, role, dom) of the
matcher (casbin library code, not part of this repository).  Per the spec, it
holds iff the assignment (sub, role, dom) is currently held. -/
def gLink (enf : Enforcer) (sub role dom : String) : Bool :=
  enf.groupings.any (fun gr => gr == [sub, role, dom])

/-- The matcher of configs/rbac_model.conf as recorded in
docs/authorization-architecture.md:
m = g(r.sub, p.sub, r.dom) && (r.obj == p.obj || p.obj == "*") &&
(r.act == p.act || p.act == "*") && r.dom == p.dom.
A policy rule carries exactly the four model tokens sub, obj, act, dom. -/
def policyMatches (enf : Enforcer) (sub obj act dom : String) (p : Rule) : Bool :=
  p.length == 4 &&
    gLink enf sub (p.getD 0 "") dom &&
    (obj == p.getD 1 "" || p.getD 1 "" == "*") &&
    (act == p.getD 2 "" || p.getD 2 "" == "*") &&
    (dom == p.getD 3 "")

/-- Modelled from the spec: casbin's Enforce (library code, not part of this
repository) allows the request iff some loaded policy fact satisfies the
matcher. -/
def enforce (enf : Enforcer) (sub obj act dom : String) : Bool :=
  enf.policies.any (policyMatches enf sub obj act dom)

/-- Modelled from the spec (section 4.3, Add): casbin's AddGroupingPolicy with
auto-save enabled — if the rule is already held nothing happens and false is
reported; otherwise it is persisted through the adapter and, on success, added
to memory with true reported. -/
def addGroupingPolicy (enf : Enforcer) (db : DB) (rule : Rule) :
    Bool × Enforcer × DB × Option AuthError :=
  if rule ∈ enf.groupings then
    (false, enf, db, none)
  else
    match adapterAddPolicy db "g" "g" rule with
    | (db1, none) => (true, { enf with groupings := enf.groupings ++ [rule] }, db1, none)
    | (db1, some e) => (false, enf, db1, some e)

/-- Modelled from the spec (section 4.3, Remove): casbin's RemoveGroupingPolicy
with auto-save enabled — removing an absent rule reports false and touches
nothing; otherwise the rule is removed from the adapter and from memory. -/
def removeGroupingPolicy (enf : Enforcer) (db : DB) (rule : Rule) :
    Bool × Enforcer × DB × Option AuthError :=
  if rule ∈ enf.groupings then
    match adapterRemovePolicy db "g" "g" rule with
    | (db1, none) =>
      (true, { enf with groupings := enf.groupings.filter (fun gr => gr != rule) }, db1, none)
    | (db1, some e) => (false, enf, db1, some e)
  else
    (false, enf, db, none)

/-- Modelled from the spec (section 4.2, LoadIntoEngine) and from the comment
in PolicyLoader.LoadPoliciesIntoEnforcer: clearing replaces the compiled fact
set and must never touch assignment state. -/
def clearPolicy (enf : Enforcer) : Enforcer :=
  { enf with policies := [] }

/-- Modelled from the spec: casbin's AddPolicy with auto-save enabled — the
adapter is invoked with section "p" (where it is a silent no-op by contract)
and the fact is added to memory unless already present. -/
def enforcerAddPolicy (enf : Enforcer) (db : DB) (rule : Rule) :
    Bool × Enforcer × DB × Option AuthError :=
  if rule ∈ enf.policies then
    (false, enf, db, none)
  else
    match adapterAddPolicy db "p" "p" rule with
    | (db1, none) => (true, { enf with policies := enf.policies ++ [rule] }, db1, none)
    | (db1, some e) => (false, enf, db1, some e)

/-- RoleConfig of policy_loader.go: the permissions map of one role, as the
association list the Go map iteration linearizes to. -/
structure RoleConfig where
  permissions : List (String × List String)
deriving Repr, DecidableEq

/-- PolicyConfig of policy_loader.go: the roles map of the policies.yaml file. -/
structure PolicyConfig where
  roles : List (String × RoleConfig)
deriving Repr, DecidableEq

/-- PolicyLoader.GetRoles: nil when no config is loaded, otherwise the role
names of the catalog. -/
def getRoles : Option PolicyConfig → List String
  | none => []
  | some c => c.roles.map Prod.fst

/-- The action loop of PolicyLoader.addRolePoliciesForTenant: one AddPolicy
call per action, converting "all" to "*" in the action position. -/
def addActionPolicies (enf : Enforcer) (db : DB)
    (roleName casbinResource tenantID : String) :
    List String → Enforcer × DB × Option AuthError
  | [] => (enf, db, none)
  | action :: rest =>
    match enforcerAddPolicy enf db
        [roleName, casbinResource, convertToCasbinWildcard action, tenantID] with
    | (_, enf1, db1, none) => addActionPolicies enf1 db1 roleName casbinResource tenantID rest
    | (_, enf1, db1, some e) => (enf1, db1, some e)

/-- PolicyLoader.addRolePoliciesForTenant: for every resource of the role,
convert "all" to "*" in the resource position and add one policy per action. -/
def addRolePoliciesForTenant (enf : Enforcer) (db : DB) (roleName tenantID : String) :
    List (String × List String) → Enforcer × DB × Option AuthError
  | [] => (enf, db, none)
  | (resource, actions) :: rest =>
    match addActionPolicies enf db roleName (convertToCasbinWildcard resource)
        tenantID actions with
    | (enf1, db1, none) => addRolePoliciesForTenant enf1 db1 roleName tenantID rest
    | (enf1, db1, some e) => (enf1, db1, some e)

/-- The tenant loop of PolicyLoader.LoadPoliciesIntoEnforcer. -/
def addForTenants (enf : Enforcer) (db : DB) (roleName : String)
    (roleConfig : RoleConfig) :
    List String → Enforcer × DB × Option AuthError
  | [] => (enf, db, none)
  | tenantID :: rest =>
    match addRolePoliciesForTenant enf db roleName tenantID roleConfig.permissions with
    | (enf1, db1, none) => addForTenants enf1 db1 roleName roleConfig rest
    | (enf1, db1, some e) => (enf1, db1, some e)

/-- The role loop of PolicyLoader.LoadPoliciesIntoEnforcer. -/
def addForRoles (enf : Enforcer) (db : DB) (tenants : List String) :
    List (String × RoleConfig) → Enforcer × DB × Option AuthError
  | [] => (enf, db, none)
  | (roleName, roleConfig) :: rest =>
    match addForTenants enf db roleName roleConfig tenants with
    | (enf1, db1, none) => addForRoles enf1 db1 tenants rest
    | (enf1, db1, some e) => (enf1, db1, some e)

/-- PolicyLoader.LoadPoliciesIntoEnforcer: fails if no config is loaded;
otherwise clears the compiled facts and regenerates one policy per
role × tenant × resource × action combination. -/
def loadPoliciesIntoEnforcer (config : Option PolicyConfig) (enf : Enforcer)
    (db : DB) (tenants : List String) : Enforcer × DB × Option AuthError :=
  match config with
  | none => (enf, db, some .configNotLoaded)
  | some c => addForRoles (clearPolicy enf) db tenants c.roles

/-- CasbinService: the enforcer's in-memory model, the adapter's database
handle and the policy loader's parsed config. -/
structure CasbinService where
  enforcer : Enforcer
  db : DB
  loader : Option PolicyConfig
deriving Repr, DecidableEq

/-- CasbinService.CanDo: validates that no identifier is empty, then asks the
enforcer. -/
def canDo (svc : CasbinService) (userID resource action tenantID : String) :
    Bool × Option AuthError :=
  if userID = "" ∨ resource = "" ∨ action = "" ∨ tenantID = "" then
    (false, some (.emptyParameters "authorization parameters cannot be empty"))
  else
    (enforce svc.enforcer userID resource action tenantID, none)

/-- CasbinService.AssignRole: validates that no identifier is empty, checks the
role against the loaded catalog, then adds the grouping policy; the Bool is the
added flag AddGroupingPolicy reports (newly added versus already existed). -/
def assignRole (svc : CasbinService) (userID role tenantID : String) :
    CasbinService × Bool × Option AuthError :=
  if userID = "" ∨ role = "" ∨ tenantID = "" then
    (svc, false, some (.emptyParameters "role assignment parameters cannot be empty"))
  else if role ∈ getRoles svc.loader then
    match addGroupingPolicy svc.enforcer svc.db [userID, role, tenantID] with
    | (added, enf1, db1, none) => ({ svc with enforcer := enf1, db := db1 }, added, none)
    | (_, enf1, db1, some e) => ({ svc with enforcer := enf1, db := db1 }, false, some e)
  else
    (svc, false, some (.roleNotAvailable role))

/-- CasbinService.RemoveRole: validates that no identifier is empty, then
removes the grouping policy; the Bool is the removed flag. -/
def removeRole (svc : CasbinService) (userID role tenantID : String) :
    CasbinService × Bool × Option AuthError :=
  if userID = "" ∨ role = "" ∨ tenantID = "" then
    (svc, false, some (.emptyParameters "role removal parameters cannot be empty"))
  else
    match removeGroupingPolicy svc.enforcer svc.db [userID, role, tenantID] with
    | (removed, enf1, db1, none) => ({ svc with enforcer := enf1, db := db1 }, removed, none)
    | (_, enf1, db1, some e) => ({ svc with enforcer := enf1, db := db1 }, false, some e)

/-- CasbinService.GetUserRoles: validates arguments, then collects grouping[1]
of every grouping with at least three values whose grouping[0] is the user and
grouping[2] is the tenant. -/
def getUserRoles (svc : CasbinService) (userID tenantID : String) :
    Option (List String) × Option AuthError :=
  if userID = "" ∨ tenantID = "" then
    (none, some (.emptyParameters "user roles query parameters cannot be empty"))
  else
    (some (svc.enforcer.groupings.filterMap fun gr =>
      if 3 ≤ gr.length ∧ gr.getD 0 "" = userID ∧ gr.getD 2 "" = tenantID then
        some (gr.getD 1 "")
      else none), none)

/-- CasbinService.GetUserTenantsForRole: validates arguments, then collects
grouping[2] of every grouping with at least three values whose grouping[0] is
the user and grouping[1] is the role — deliberately not tenant-scoped. -/
def getUserTenantsForRole (svc : CasbinService) (userID role : String) :
    Option (List String) × Option AuthError :=
  if userID = "" ∨ role = "" then
    (none, some (.emptyParameters "tenant query parameters cannot be empty"))
  else
    (some (svc.enforcer.groupings.filterMap fun gr =>
      if 3 ≤ gr.length ∧ gr.getD 0 "" = userID ∧ gr.getD 1 "" = role then
        some (gr.getD 2 "")
      else none), none)

/-- CasbinService.HasRole: validates arguments, then checks grouping membership
(casbin's HasGroupingPolicy, modelled from the spec as a pure membership
test). -/
def hasRole (svc : CasbinService) (userID role tenantID : String) :
    Bool × Option AuthError :=
  if userID = "" ∨ role = "" ∨ tenantID = "" then
    (false, some (.emptyParameters "role check parameters cannot be empty"))
  else
    (svc.enforcer.groupings.contains [userID, role, tenantID], none)

/-- CasbinService.ReloadPolicies: rejects an empty tenant list, then reloads
the compiled facts through the policy loader. -/
def reloadPolicies (svc : CasbinService) (tenants : List String) :
    CasbinService × Option AuthError :=
  if tenants.isEmpty then
    (svc, some .emptyTenantsList)
  else
    match loadPoliciesIntoEnforcer svc.loader svc.enforcer svc.db tenants with
    | (enf1, db1, none) => ({ svc with enforcer := enf1, db := db1 }, none)
    | (enf1, db1, some e) => ({ svc with enforcer := enf1, db := db1 }, some e)

/-- One call against the persistence adapter, as casbin issues them: an
incremental add, an incremental remove, or a full save of the model's g
section (savePolicy's failIn parameter injects an external storage failure). -/
inductive StoreOp where
  | add (sec ptype : String) (rule : Rule)
  | remove (sec ptype : String) (rule : Rule)
  | save (gSection : List (String × Rule)) (failIn : Option Nat)
deriving Repr

/-- Execute one adapter call against the durable table. -/
def applyStoreOp (db : DB) : StoreOp → DB × Option AuthError
  | .add sec ptype rule => adapterAddPolicy db sec ptype rule
  | .remove sec ptype rule => adapterRemovePolicy db sec ptype rule
  | .save gSection failIn => savePolicy db gSection failIn

/-- Execute a sequence of adapter calls, keeping the table state each returns. -/
def runStoreOps (db : DB) : List StoreOp → DB
  | [] => db
  | op :: rest => runStoreOps (applyStoreOp db op).1 rest

/-- Casbin's calling convention for the adapter: a grouping call carries a
ptype of the model's g section ("g", "g2", ...), and a full save persists the
g section whose ptypes likewise begin with g. -/
def StoreOp.wellFormed : StoreOp → Prop
  | .add sec ptype _ => sec = "g" → isGroupPtype ptype = true
  | .remove _ _ _ => True
  | .save gSection _ => ∀ p ∈ gSection, isGroupPtype p.1 = true

/-- The durable table contains assignment records only: every row's ptype
marks it as a grouping record. -/
def assignmentOnly (db : DB) : Prop :=
  ∀ row ∈ db.rows, isGroupPtype row.ptype = true

end Authz

namespace Authz

lemma gLink_eq_true_iff (enf : Enforcer) (sub role dom : String) :
    gLink enf sub role dom = true ↔ [sub, role, dom] ∈ enf.groupings := by
  simp [gLink, List.any_eq_true]

lemma rule_shape_of_length_four {l : Rule} (h : l.length = 4) :
    ∃ a b c d, l = [a, b, c, d] := by
  rcases l with _ | ⟨a, _ | ⟨b, _ | ⟨c, _ | ⟨d, _ | ⟨e, tl⟩⟩⟩⟩⟩
  · simp at h
  · simp at h
  · simp at h
  · simp at h
  · exact ⟨a, b, c, d, rfl⟩
  · simp [List.length] at h

lemma policyMatches_eq_true_iff (enf : Enforcer) (sub obj act dom : String) (p : Rule) :
    policyMatches enf sub obj act dom p = true ↔
      ∃ psub pobj pact, p = [psub, pobj, pact, dom] ∧
        [sub, psub, dom] ∈ enf.groupings ∧
        (obj = pobj ∨ pobj = "*") ∧ (act = pact ∨ pact = "*") := by
  constructor
  · intro h
    simp only [policyMatches, Bool.and_eq_true, beq_iff_eq, Bool.or_eq_true] at h
    obtain ⟨⟨⟨⟨hlen, hg⟩, hobj⟩, hact⟩, hdom⟩ := h
    obtain ⟨a, b, c, d, rfl⟩ := rule_shape_of_length_four hlen
    simp only [List.getD_cons_zero, List.getD_cons_succ] at hg hobj hact hdom
    subst hdom
    exact ⟨a, b, c, rfl, (gLink_eq_true_iff enf sub a dom).mp hg, hobj, hact⟩
  · rintro ⟨psub, pobj, pact, rfl, hg, hobj, hact⟩
    simp only [policyMatches, Bool.and_eq_true, beq_iff_eq, Bool.or_eq_true,
      List.length_cons, List.length_nil, List.getD_cons_zero, List.getD_cons_succ]
    exact ⟨⟨⟨⟨by trivial, (gLink_eq_true_iff enf sub psub dom).mpr hg⟩, hobj⟩, hact⟩, by trivial⟩

lemma enforce_eq_true_iff (enf : Enforcer) (sub obj act dom : String) :
    enforce enf sub obj act dom = true ↔
      ∃ psub pobj pact, [sub, psub, dom] ∈ enf.groupings ∧
        [psub, pobj, pact, dom] ∈ enf.policies ∧
        (obj = pobj ∨ pobj = "*") ∧ (act = pact ∨ pact = "*") := by
  rw [enforce, List.any_eq_true]
  constructor
  · rintro ⟨p, hp, hmatch⟩
    obtain ⟨psub, pobj, pact, rfl, hg, hobj, hact⟩ :=
      (policyMatches_eq_true_iff enf sub obj act dom p).mp hmatch
    exact ⟨psub, pobj, pact, hg, hp, hobj, hact⟩
  · rintro ⟨psub, pobj, pact, hg, hp, hobj, hact⟩
    exact ⟨[psub, pobj, pact, dom], hp,
      (policyMatches_eq_true_iff enf sub obj act dom _).mpr
        ⟨psub, pobj, pact, rfl, hg, hobj, hact⟩⟩

lemma enforce_eq_false_of_no_grouping (enf : Enforcer) (u r a t : String)
    (hno : ∀ ρ, [u, ρ, t] ∉ enf.groupings) :
    enforce enf u r a t = false := by
  rw [← Bool.not_eq_true]
  intro h
  obtain ⟨psub, _, _, hg, _, _, _⟩ := (enforce_eq_true_iff enf u r a t).mp h
  exact hno psub hg

lemma canDo_fst_false_of_no_grouping (svc : CasbinService) (u r a t : String)
    (hno : ∀ ρ, [u, ρ, t] ∉ svc.enforcer.groupings) :
    (canDo svc u r a t).1 = false := by
  by_cases hval : u = "" ∨ r = "" ∨ a = "" ∨ t = ""
  · rw [canDo, if_pos hval]
  · rw [canDo, if_neg hval]
    exact enforce_eq_false_of_no_grouping svc.enforcer u r a t hno

lemma addGroupingPolicy_mem (enf : Enforcer) (db : DB) (rule : Rule) :
    (addGroupingPolicy enf db rule).2.1.groupings = enf.groupings ∨
    (addGroupingPolicy enf db rule).2.1.groupings = enf.groupings ++ [rule] := by
  by_cases hmem : rule ∈ enf.groupings
  · rw [addGroupingPolicy, if_pos hmem]
    exact Or.inl rfl
  · rw [addGroupingPolicy, if_neg hmem, adapterAddPolicy, if_pos rfl,
      insertRoleAssignment]
    by_cases hdup : db.rows.any
        (fun r => decide (rowKey r = rowKey (mkRow "g" rule))) = true
    · simp only [hdup, if_true]
      exact Or.inl (by trivial)
    · simp only [Bool.not_eq_true] at hdup
      simp only [hdup, Bool.false_eq_true, if_false]
      exact Or.inr (by trivial)

lemma assignRole_groupings_cases (svc : CasbinService) (u R t : String) :
    ∀ gr ∈ (assignRole svc u R t).1.enforcer.groupings,
      gr ∈ svc.enforcer.groupings ∨ gr = [u, R, t] := by
  intro gr hgr
  by_cases hval : u = "" ∨ R = "" ∨ t = ""
  · rw [assignRole, if_pos hval] at hgr
    exact Or.inl hgr
  · rw [assignRole, if_neg hval] at hgr
    by_cases hrole : R ∈ getRoles svc.loader
    · rw [if_pos hrole] at hgr
      rcases hg : addGroupingPolicy svc.enforcer svc.db [u, R, t] with ⟨added, enf1, db1, err⟩
      have hcases := addGroupingPolicy_mem svc.enforcer svc.db [u, R, t]
      rw [hg] at hcases hgr
      rcases err with _ | e
      · simp only at hgr
        rcases hcases with h | h <;> simp only at h
        · rw [h] at hgr
          exact Or.inl hgr
        · rw [h] at hgr
          rcases List.mem_append.mp hgr with h1 | h1
          · exact Or.inl h1
          · exact Or.inr (List.mem_singleton.mp h1)
      · simp only at hgr
        rcases hcases with h | h <;> simp only at h
        · rw [h] at hgr
          exact Or.inl hgr
        · rw [h] at hgr
          rcases List.mem_append.mp hgr with h1 | h1
          · exact Or.inl h1
          · exact Or.inr (List.mem_singleton.mp h1)
    · rw [if_neg hrole] at hgr
      exact Or.inl hgr

end Authz

namespace Authz

/-- C1: for every non-empty userID, resource, action and tenantID,
CanDo(user, resource, action, tenant) returns true iff some role R is assigned
to the user in that tenant and a compiled policy fact (R, r2, a2, tenant)
exists where r2 equals the resource or is the wildcard, a2 equals the action
or is the wildcard, and the tenant component matches exactly. -/
theorem canDo_iff_assignment_and_fact (svc : CasbinService) (u r a t : String)
    (hu : u ≠ "") (hr : r ≠ "") (ha : a ≠ "") (ht : t ≠ "") :
    (canDo svc u r a t).1 = true ↔
      ∃ R r2 a2, [u, R, t] ∈ svc.enforcer.groupings ∧
        [R, r2, a2, t] ∈ svc.enforcer.policies ∧
        (r2 = r ∨ r2 = "*") ∧ (a2 = a ∨ a2 = "*") := by
  have hval : ¬(u = "" ∨ r = "" ∨ a = "" ∨ t = "") := by
    push_neg
    exact ⟨hu, hr, ha, ht⟩
  rw [canDo, if_neg hval]
  rw [enforce_eq_true_iff]
  constructor
  · rintro ⟨R, r2, a2, hg, hp, hobj, hact⟩
    exact ⟨R, r2, a2, hg, hp, hobj.imp Eq.symm id, hact.imp Eq.symm id⟩
  · rintro ⟨R, r2, a2, hg, hp, hobj, hact⟩
    exact ⟨R, r2, a2, hg, hp, hobj.imp Eq.symm id, hact.imp Eq.symm id⟩

/-- Witness for C1: a concrete state where the equivalence produces true. -/
theorem canDo_iff_assignment_and_fact_witness :
    (canDo ⟨⟨[["admin", "*", "read", "acme"]], [["u1", "admin", "acme"]]⟩, ⟨[]⟩, none⟩
      "u1" "doc" "read" "acme").1 = true :=
  (canDo_iff_assignment_and_fact
    ⟨⟨[["admin", "*", "read", "acme"]], [["u1", "admin", "acme"]]⟩, ⟨[]⟩, none⟩
    "u1" "doc" "read" "acme" (by decide) (by decide) (by decide) (by decide)).mpr
    ⟨"admin", "*", "read", by decide, by decide, Or.inr rfl, Or.inl rfl⟩

/-- C2: assigning role R to user U in tenant t1 never grants CanDo in a
different tenant t2: if U holds no assignment in t2, then after any
AssignRole call for t1 every CanDo query against t2 still returns false. -/
theorem assignRole_no_cross_tenant_grant (svc : CasbinService)
    (u R t1 t2 r a : String) (hne : t1 ≠ t2)
    (hno : ∀ ρ, [u, ρ, t2] ∉ svc.enforcer.groupings) :
    (canDo (assignRole svc u R t1).1 u r a t2).1 = false := by
  apply canDo_fst_false_of_no_grouping
  intro ρ hmem
  rcases assignRole_groupings_cases svc u R t1 _ hmem with h | h
  · exact hno ρ h
  · simp only [List.cons.injEq, and_true, true_and] at h
    exact hne h.2.symm

/-- Witness for C2: a concrete cross-tenant query denied after an assignment. -/
theorem assignRole_no_cross_tenant_grant_witness :
    (canDo (assignRole
      ⟨⟨[["admin", "*", "*", "t1"]], []⟩, ⟨[]⟩,
        some ⟨[("admin", ⟨[("all", ["all"])]⟩)]⟩⟩ "u1" "admin" "t1").1
      "u1" "doc" "read" "t2").1 = false :=
  assignRole_no_cross_tenant_grant
    ⟨⟨[["admin", "*", "*", "t1"]], []⟩, ⟨[]⟩, some ⟨[("admin", ⟨[("all", ["all"])]⟩)]⟩⟩
    "u1" "admin" "t1" "t2" "doc" "read" (by decide)
    (fun ρ h => by simp at h)

/-- C7: AssignRole with a role absent from the loaded catalog fails and
changes nothing: the same service state (in-memory assignments and durable
store alike) is returned with the role-not-available error, which the spec
classifies as InvalidArgument. -/
theorem assignRole_unknown_role_rejected (svc : CasbinService) (u role t : String)
    (hu : u ≠ "") (hr : role ≠ "") (ht : t ≠ "")
    (hrole : role ∉ getRoles svc.loader) :
    assignRole svc u role t = (svc, false, some (.roleNotAvailable role)) ∧
    (AuthError.roleNotAvailable role).isInvalidArgument = true := by
  have hval : ¬(u = "" ∨ role = "" ∨ t = "") := by
    push_neg
    exact ⟨hu, hr, ht⟩
  rw [assignRole, if_neg hval, if_neg hrole]
  exact ⟨rfl, rfl⟩

/-- Witness for C7: assigning a ghost role in a concrete catalog fails. -/
theorem assignRole_unknown_role_rejected_witness :
    assignRole ⟨⟨[], []⟩, ⟨[]⟩, some ⟨[("admin", ⟨[("all", ["all"])]⟩)]⟩⟩
        "u1" "ghost-role" "acme" =
      (⟨⟨[], []⟩, ⟨[]⟩, some ⟨[("admin", ⟨[("all", ["all"])]⟩)]⟩⟩, false,
        some (.roleNotAvailable "ghost-role")) :=
  (assignRole_unknown_role_rejected
    ⟨⟨[], []⟩, ⟨[]⟩, some ⟨[("admin", ⟨[("all", ["all"])]⟩)]⟩⟩
    "u1" "ghost-role" "acme" (by decide) (by decide) (by decide) (by decide)).1

/-- C8: every public operation called with an empty required identifier fails
with the empty-parameters error (InvalidArgument per the spec) before any
engine or storage access: the mutating operations return the service state
unchanged, and the queries return no result. -/
theorem empty_identifiers_rejected (svc : CasbinService) (u r a role t : String) :
    ((u = "" ∨ r = "" ∨ a = "" ∨ t = "") →
      canDo svc u r a t =
        (false, some (.emptyParameters "authorization parameters cannot be empty"))) ∧
    ((u = "" ∨ role = "" ∨ t = "") →
      assignRole svc u role t =
        (svc, false, some (.emptyParameters "role assignment parameters cannot be empty"))) ∧
    ((u = "" ∨ role = "" ∨ t = "") →
      removeRole svc u role t =
        (svc, false, some (.emptyParameters "role removal parameters cannot be empty"))) ∧
    ((u = "" ∨ t = "") →
      getUserRoles svc u t =
        (none, some (.emptyParameters "user roles query parameters cannot be empty"))) ∧
    ((u = "" ∨ role = "") →
      getUserTenantsForRole svc u role =
        (none, some (.emptyParameters "tenant query parameters cannot be empty"))) ∧
    ((u = "" ∨ role = "" ∨ t = "") →
      hasRole svc u role t =
        (false, some (.emptyParameters "role check parameters cannot be empty"))) ∧
    (∀ s, (AuthError.emptyParameters s).isInvalidArgument = true) := by
  refine ⟨?_, ?_, ?_, ?_, ?_, ?_, fun s => rfl⟩
  · intro h
    rw [canDo, if_pos h]
  · intro h
    rw [assignRole, if_pos h]
  · intro h
    rw [removeRole, if_pos h]
  · intro h
    rw [getUserRoles, if_pos h]
  · intro h
    rw [getUserTenantsForRole, if_pos h]
  · intro h
    rw [hasRole, if_pos h]

/-- Witness for C8: each operation rejects a concrete empty identifier. -/
theorem empty_identifiers_rejected_witness :
    canDo ⟨⟨[], []⟩, ⟨[]⟩, none⟩ "" "doc" "read" "acme" =
      (false, some (.emptyParameters "authorization parameters cannot be empty")) ∧
    assignRole ⟨⟨[], []⟩, ⟨[]⟩, none⟩ "" "admin" "acme" =
      (⟨⟨[], []⟩, ⟨[]⟩, none⟩, false,
        some (.emptyParameters "role assignment parameters cannot be empty")) ∧
    removeRole ⟨⟨[], []⟩, ⟨[]⟩, none⟩ "" "admin" "acme" =
      (⟨⟨[], []⟩, ⟨[]⟩, none⟩, false,
        some (.emptyParameters "role removal parameters cannot be empty")) ∧
    getUserRoles ⟨⟨[], []⟩, ⟨[]⟩, none⟩ "" "acme" =
      (none, some (.emptyParameters "user roles query parameters cannot be empty")) ∧
    getUserTenantsForRole ⟨⟨[], []⟩, ⟨[]⟩, none⟩ "" "admin" =
      (none, some (.emptyParameters "tenant query parameters cannot be empty")) ∧
    hasRole ⟨⟨[], []⟩, ⟨[]⟩, none⟩ "" "admin" "acme" =
      (false, some (.emptyParameters "role check parameters cannot be empty")) := by
  have h := empty_identifiers_rejected ⟨⟨[], []⟩, ⟨[]⟩, none⟩ "" "doc" "read" "admin" "acme"
  exact ⟨h.1 (Or.inl rfl), h.2.1 (Or.inl rfl), h.2.2.1 (Or.inl rfl),
    h.2.2.2.1 (Or.inl rfl), h.2.2.2.2.1 (Or.inl rfl), h.2.2.2.2.2.1 (Or.inl rfl)⟩

/-- C10: insertRoleAssignment pads every value column beyond the rule's length
with the empty string (all six columns are always bound to non-NULL strings by
construction), so a persisted (user, role, tenant) assignment row is exactly
(ptype g, user, role, tenant, three empty strings) and its unique-constraint
key (ptype, v0, v1, v2, v3) is deterministically (g, user, role, tenant, ""). -/
theorem insertRoleAssignment_pads_with_empty (ptype u role t : String) (rule : Rule) :
    mkRow "g" [u, role, t] = ⟨"g", u, role, t, "", "", ""⟩ ∧
    rowKey (mkRow "g" [u, role, t]) = ("g", u, role, t, "") ∧
    (∀ i : Nat, i < 6 → rule.length ≤ i → rowVal (mkRow ptype rule) i = "") ∧
    (∀ i : Nat, i < 6 → rowVal (mkRow ptype rule) i = rule.getD i "") := by
  refine ⟨rfl, rfl, ?_, ?_⟩
  · intro i h6 hlen
    interval_cases i <;>
      simp only [mkRow, rowVal] <;>
      exact List.getD_eq_default _ _ hlen
  · intro i h6
    interval_cases i <;> rfl

/-- Witness for C10: a concrete three-value assignment row and a padded
column of a shorter rule. -/
theorem insertRoleAssignment_pads_with_empty_witness :
    mkRow "g" ["u7", "admin", "acme"] = ⟨"g", "u7", "admin", "acme", "", "", ""⟩ ∧
    rowVal (mkRow "g" ["a"]) 3 = "" := by
  have h := insertRoleAssignment_pads_with_empty "g" "u7" "admin" "acme" ["a"]
  exact ⟨h.1, h.2.2.1 3 (by decide) (by decide)⟩

end Authz

namespace Authz

lemma enforcerAddPolicy_spec (enf : Enforcer) (db : DB) (r : Rule) :
    (enforcerAddPolicy enf db r).2.2.1 = db ∧
    (enforcerAddPolicy enf db r).2.2.2 = none ∧
    (enforcerAddPolicy enf db r).2.1.groupings = enf.groupings ∧
    (enf.policies.Nodup → (enforcerAddPolicy enf db r).2.1.policies.Nodup) ∧
    ∀ f, f ∈ (enforcerAddPolicy enf db r).2.1.policies ↔ f ∈ enf.policies ∨ f = r := by
  by_cases hmem : r ∈ enf.policies
  · rw [enforcerAddPolicy, if_pos hmem]
    refine ⟨rfl, rfl, rfl, fun h => h, fun f => ?_⟩
    constructor
    · exact Or.inl
    · rintro (h | rfl)
      · exact h
      · exact hmem
  · have hp : ¬(("p" : String) = "g") := by decide
    rw [enforcerAddPolicy, if_neg hmem, adapterAddPolicy, if_neg hp]
    refine ⟨rfl, rfl, rfl, fun h => ?_, fun f => ?_⟩
    · simp only [List.nodup_append, List.nodup_cons, List.not_mem_nil, not_false_iff,
        List.nodup_nil, and_true, true_and]
      refine ⟨h, ?_⟩
      intro x hx
      simp only [List.mem_singleton]
      intro heq
      exact hmem (heq ▸ hx)
    · simp [List.mem_append]

lemma addActionPolicies_spec (roleName cres tenantID : String) (acts : List String) :
    ∀ (enf : Enforcer) (db : DB),
      (addActionPolicies enf db roleName cres tenantID acts).2 = (db, none) ∧
      (addActionPolicies enf db roleName cres tenantID acts).1.groupings = enf.groupings ∧
      (enf.policies.Nodup →
        (addActionPolicies enf db roleName cres tenantID acts).1.policies.Nodup) ∧
      ∀ f, f ∈ (addActionPolicies enf db roleName cres tenantID acts).1.policies ↔
        f ∈ enf.policies ∨
          ∃ x ∈ acts, f = [roleName, cres, convertToCasbinWildcard x, tenantID] := by
  induction acts with
  | nil =>
    intro enf db
    refine ⟨rfl, rfl, fun h => h, fun f => ?_⟩
    simp [addActionPolicies]
  | cons x rest ih =>
    intro enf db
    rcases h1 : enforcerAddPolicy enf db [roleName, cres, convertToCasbinWildcard x, tenantID]
      with ⟨added, enf1, db1, err⟩
    obtain ⟨hdb0, herr0, hgr0, hnd0, hmem0⟩ :=
      enforcerAddPolicy_spec enf db [roleName, cres, convertToCasbinWildcard x, tenantID]
    rw [h1] at hdb0 herr0 hgr0 hnd0 hmem0
    have hdb1 : db1 = db := hdb0
    have herr : err = none := herr0
    subst db1
    subst err
    have hgr1 : enf1.groupings = enf.groupings := hgr0
    have hnd1 : enf.policies.Nodup → enf1.policies.Nodup := hnd0
    have hmem1 : ∀ f, f ∈ enf1.policies ↔
        f ∈ enf.policies ∨ f = [roleName, cres, convertToCasbinWildcard x, tenantID] := hmem0
    have hstep : addActionPolicies enf db roleName cres tenantID (x :: rest) =
        addActionPolicies enf1 db roleName cres tenantID rest := by
      rw [addActionPolicies, h1]
    rw [hstep]
    obtain ⟨ihdb, ihgr, ihnd, ihmem⟩ := ih enf1 db
    refine ⟨ihdb, by rw [ihgr, hgr1], fun hnd => ihnd (hnd1 hnd), ?_⟩
    intro f
    rw [ihmem f, hmem1 f]
    constructor
    · rintro ((hf | rfl) | ⟨y, hy, rfl⟩)
      · exact Or.inl hf
      · exact Or.inr ⟨x, List.mem_cons_self x rest, rfl⟩
      · exact Or.inr ⟨y, List.mem_cons_of_mem x hy, rfl⟩
    · rintro (hf | ⟨y, hy, rfl⟩)
      · exact Or.inl (Or.inl hf)
      · rcases List.mem_cons.mp hy with heq | hy2
        · subst heq
          exact Or.inl (Or.inr rfl)
        · exact Or.inr ⟨y, hy2, rfl⟩

end Authz

namespace Authz

lemma addRolePoliciesForTenant_spec (roleName tenantID : String)
    (perms : List (String × List String)) :
    ∀ (enf : Enforcer) (db : DB),
      (addRolePoliciesForTenant enf db roleName tenantID perms).2 = (db, none) ∧
      (addRolePoliciesForTenant enf db roleName tenantID perms).1.groupings = enf.groupings ∧
      (enf.policies.Nodup →
        (addRolePoliciesForTenant enf db roleName tenantID perms).1.policies.Nodup) ∧
      ∀ f, f ∈ (addRolePoliciesForTenant enf db roleName tenantID perms).1.policies ↔
        f ∈ enf.policies ∨ ∃ res acts, (res, acts) ∈ perms ∧ ∃ a ∈ acts,
          f = [roleName, convertToCasbinWildcard res, convertToCasbinWildcard a, tenantID] := by
  induction perms with
  | nil =>
    intro enf db
    refine ⟨rfl, rfl, fun h => h, fun f => ?_⟩
    simp [addRolePoliciesForTenant]
  | cons p rest ih =>
    rcases p with ⟨res, acts⟩
    intro enf db
    rcases h1 : addActionPolicies enf db roleName (convertToCasbinWildcard res) tenantID acts
      with ⟨enf1, db1, err⟩
    obtain ⟨hpair, hgr0, hnd0, hmem0⟩ :=
      addActionPolicies_spec roleName (convertToCasbinWildcard res) tenantID acts enf db
    rw [h1] at hpair hgr0 hnd0 hmem0
    have hdb1 : db1 = db := congrArg Prod.fst hpair
    have herr : err = none := congrArg Prod.snd hpair
    subst db1
    subst err
    have hgr1 : enf1.groupings = enf.groupings := hgr0
    have hnd1 : enf.policies.Nodup → enf1.policies.Nodup := hnd0
    have hmem1 : ∀ f, f ∈ enf1.policies ↔ f ∈ enf.policies ∨ ∃ a ∈ acts,
        f = [roleName, convertToCasbinWildcard res, convertToCasbinWildcard a, tenantID] := hmem0
    have hstep : addRolePoliciesForTenant enf db roleName tenantID ((res, acts) :: rest) =
        addRolePoliciesForTenant enf1 db roleName tenantID rest := by
      rw [addRolePoliciesForTenant, h1]
    rw [hstep]
    obtain ⟨ihdb, ihgr, ihnd, ihmem⟩ := ih enf1 db
    refine ⟨ihdb, by rw [ihgr, hgr1], fun hnd => ihnd (hnd1 hnd), ?_⟩
    intro f
    rw [ihmem f, hmem1 f]
    constructor
    · rintro ((hf | ⟨a, ha, rfl⟩) | ⟨res2, acts2, hmem2, a, ha, rfl⟩)
      · exact Or.inl hf
      · exact Or.inr ⟨res, acts, List.mem_cons_self _ _, a, ha, rfl⟩
      · exact Or.inr ⟨res2, acts2, List.mem_cons_of_mem _ hmem2, a, ha, rfl⟩
    · rintro (hf | ⟨res2, acts2, hmem2, a, ha, rfl⟩)
      · exact Or.inl (Or.inl hf)
      · rcases List.mem_cons.mp hmem2 with heq | h2
        · rw [Prod.mk.injEq] at heq
          obtain ⟨rfl, rfl⟩ := heq
          exact Or.inl (Or.inr ⟨a, ha, rfl⟩)
        · exact Or.inr ⟨res2, acts2, h2, a, ha, rfl⟩

lemma addForTenants_spec (roleName : String) (roleConfig : RoleConfig)
    (ts : List String) :
    ∀ (enf : Enforcer) (db : DB),
      (addForTenants enf db roleName roleConfig ts).2 = (db, none) ∧
      (addForTenants enf db roleName roleConfig ts).1.groupings = enf.groupings ∧
      (enf.policies.Nodup →
        (addForTenants enf db roleName roleConfig ts).1.policies.Nodup) ∧
      ∀ f, f ∈ (addForTenants enf db roleName roleConfig ts).1.policies ↔
        f ∈ enf.policies ∨ ∃ t ∈ ts, ∃ res acts,
          (res, acts) ∈ roleConfig.permissions ∧ ∃ a ∈ acts,
            f = [roleName, convertToCasbinWildcard res, convertToCasbinWildcard a, t] := by
  induction ts with
  | nil =>
    intro enf db
    refine ⟨rfl, rfl, fun h => h, fun f => ?_⟩
    simp [addForTenants]
  | cons t rest ih =>
    intro enf db
    rcases h1 : addRolePoliciesForTenant enf db roleName t roleConfig.permissions
      with ⟨enf1, db1, err⟩
    obtain ⟨hpair, hgr0, hnd0, hmem0⟩ :=
      addRolePoliciesForTenant_spec roleName t roleConfig.permissions enf db
    rw [h1] at hpair hgr0 hnd0 hmem0
    have hdb1 : db1 = db := congrArg Prod.fst hpair
    have herr : err = none := congrArg Prod.snd hpair
    subst db1
    subst err
    have hgr1 : enf1.groupings = enf.groupings := hgr0
    have hnd1 : enf.policies.Nodup → enf1.policies.Nodup := hnd0
    have hmem1 : ∀ f, f ∈ enf1.policies ↔ f ∈ enf.policies ∨ ∃ res acts,
        (res, acts) ∈ roleConfig.permissions ∧ ∃ a ∈ acts,
          f = [roleName, convertToCasbinWildcard res, convertToCasbinWildcard a, t] := hmem0
    have hstep : addForTenants enf db roleName roleConfig (t :: rest) =
        addForTenants enf1 db roleName roleConfig rest := by
      rw [addForTenants, h1]
    rw [hstep]
    obtain ⟨ihdb, ihgr, ihnd, ihmem⟩ := ih enf1 db
    refine ⟨ihdb, by rw [ihgr, hgr1], fun hnd => ihnd (hnd1 hnd), ?_⟩
    intro f
    rw [ihmem f, hmem1 f]
    constructor
    · rintro ((hf | ⟨res, acts, hperm, a, ha, rfl⟩) | ⟨t2, ht2, res, acts, hperm, a, ha, rfl⟩)
      · exact Or.inl hf
      · exact Or.inr ⟨t, List.mem_cons_self _ _, res, acts, hperm, a, ha, rfl⟩
      · exact Or.inr ⟨t2, List.mem_cons_of_mem _ ht2, res, acts, hperm, a, ha, rfl⟩
    · rintro (hf | ⟨t2, ht2, res, acts, hperm, a, ha, rfl⟩)
      · exact Or.inl (Or.inl hf)
      · rcases List.mem_cons.mp ht2 with rfl | h2
        · exact Or.inl (Or.inr ⟨res, acts, hperm, a, ha, rfl⟩)
        · exact Or.inr ⟨t2, h2, res, acts, hperm, a, ha, rfl⟩

lemma addForRoles_spec (tenants : List String) (rcs : List (String × RoleConfig)) :
    ∀ (enf : Enforcer) (db : DB),
      (addForRoles enf db tenants rcs).2 = (db, none) ∧
      (addForRoles enf db tenants rcs).1.groupings = enf.groupings ∧
      (enf.policies.Nodup → (addForRoles enf db tenants rcs).1.policies.Nodup) ∧
      ∀ f, f ∈ (addForRoles enf db tenants rcs).1.policies ↔
        f ∈ enf.policies ∨ ∃ role rc, (role, rc) ∈ rcs ∧ ∃ t ∈ tenants, ∃ res acts,
          (res, acts) ∈ rc.permissions ∧ ∃ a ∈ acts,
            f = [role, convertToCasbinWildcard res, convertToCasbinWildcard a, t] := by
  induction rcs with
  | nil =>
    intro enf db
    refine ⟨rfl, rfl, fun h => h, fun f => ?_⟩
    simp [addForRoles]
  | cons p rest ih =>
    rcases p with ⟨roleName, roleConfig⟩
    intro enf db
    rcases h1 : addForTenants enf db roleName roleConfig tenants with ⟨enf1, db1, err⟩
    obtain ⟨hpair, hgr0, hnd0, hmem0⟩ := addForTenants_spec roleName roleConfig tenants enf db
    rw [h1] at hpair hgr0 hnd0 hmem0
    have hdb1 : db1 = db := congrArg Prod.fst hpair
    have herr : err = none := congrArg Prod.snd hpair
    subst db1
    subst err
    have hgr1 : enf1.groupings = enf.groupings := hgr0
    have hnd1 : enf.policies.Nodup → enf1.policies.Nodup := hnd0
    have hmem1 : ∀ f, f ∈ enf1.policies ↔ f ∈ enf.policies ∨ ∃ t ∈ tenants, ∃ res acts,
        (res, acts) ∈ roleConfig.permissions ∧ ∃ a ∈ acts,
          f = [roleName, convertToCasbinWildcard res, convertToCasbinWildcard a, t] := hmem0
    have hstep : addForRoles enf db tenants ((roleName, roleConfig) :: rest) =
        addForRoles enf1 db tenants rest := by
      rw [addForRoles, h1]
    rw [hstep]
    obtain ⟨ihdb, ihgr, ihnd, ihmem⟩ := ih enf1 db
    refine ⟨ihdb, by rw [ihgr, hgr1], fun hnd => ihnd (hnd1 hnd), ?_⟩
    intro f
    rw [ihmem f, hmem1 f]
    constructor
    · rintro ((hf | ⟨t, ht, res, acts, hperm, a, ha, rfl⟩) |
        ⟨role2, rc2, hrc2, t, ht, res, acts, hperm, a, ha, rfl⟩)
      · exact Or.inl hf
      · exact Or.inr ⟨roleName, roleConfig, List.mem_cons_self _ _, t, ht, res, acts, hperm, a, ha, rfl⟩
      · exact Or.inr ⟨role2, rc2, List.mem_cons_of_mem _ hrc2, t, ht, res, acts, hperm, a, ha, rfl⟩
    · rintro (hf | ⟨role2, rc2, hrc2, t, ht, res, acts, hperm, a, ha, rfl⟩)
      · exact Or.inl (Or.inl hf)
      · rcases List.mem_cons.mp hrc2 with heq | h2
        · rw [Prod.mk.injEq] at heq
          obtain ⟨rfl, rfl⟩ := heq
          exact Or.inl (Or.inr ⟨t, ht, res, acts, hperm, a, ha, rfl⟩)
        · exact Or.inr ⟨role2, rc2, h2, t, ht, res, acts, hperm, a, ha, rfl⟩

lemma loadPolicies_spec (c : PolicyConfig) (enf : Enforcer) (db : DB)
    (tenants : List String) :
    (loadPoliciesIntoEnforcer (some c) enf db tenants).2 = (db, none) ∧
    (loadPoliciesIntoEnforcer (some c) enf db tenants).1.groupings = enf.groupings ∧
    (loadPoliciesIntoEnforcer (some c) enf db tenants).1.policies.Nodup ∧
    ∀ f, f ∈ (loadPoliciesIntoEnforcer (some c) enf db tenants).1.policies ↔
      ∃ role rc, (role, rc) ∈ c.roles ∧ ∃ t ∈ tenants, ∃ res acts,
        (res, acts) ∈ rc.permissions ∧ ∃ a ∈ acts,
          f = [role, convertToCasbinWildcard res, convertToCasbinWildcard a, t] := by
  obtain ⟨hpair, hgr, hnd, hmem⟩ := addForRoles_spec tenants c.roles (clearPolicy enf) db
  refine ⟨hpair, hgr, hnd (by simp [clearPolicy]), ?_⟩
  intro f
  rw [show (loadPoliciesIntoEnforcer (some c) enf db tenants) =
    addForRoles (clearPolicy enf) db tenants c.roles from rfl]
  rw [hmem f]
  simp [clearPolicy]

end Authz

namespace Authz

/-- C9: compiling the catalog emits (with no error and without touching the
store or the assignments) a duplicate-free fact set containing exactly the
facts [role, resource, action, tenant] for every role, permission and tenant
of the supplied list, where the token all is replaced by the wildcard
independently in the resource position and in the action position and every
other token is left unchanged. -/
theorem compile_expands_catalog (c : PolicyConfig) (enf : Enforcer) (db : DB)
    (tenants : List String) :
    (loadPoliciesIntoEnforcer (some c) enf db tenants).2 = (db, none) ∧
    (loadPoliciesIntoEnforcer (some c) enf db tenants).1.policies.Nodup ∧
    (∀ f, f ∈ (loadPoliciesIntoEnforcer (some c) enf db tenants).1.policies ↔
      ∃ role rc, (role, rc) ∈ c.roles ∧ ∃ t ∈ tenants, ∃ res acts,
        (res, acts) ∈ rc.permissions ∧ ∃ a ∈ acts,
          f = [role, convertToCasbinWildcard res, convertToCasbinWildcard a, t]) ∧
    convertToCasbinWildcard "all" = "*" ∧
    (∀ v, v ≠ "all" → convertToCasbinWildcard v = v) := by
  obtain ⟨hpair, _, hnd, hmem⟩ := loadPolicies_spec c enf db tenants
  exact ⟨hpair, hnd, hmem, rfl, fun v hv => if_neg hv⟩

/-- Witness for C9: a concrete catalog whose compiled facts contain a fact
with a wildcard resource and a literal action, the literal token unchanged. -/
theorem compile_expands_catalog_witness :
    ["admin", "*", "view", "acme"] ∈
      (loadPoliciesIntoEnforcer (some ⟨[("admin", ⟨[("all", ["view"])]⟩)]⟩)
        ⟨[], []⟩ ⟨[]⟩ ["acme"]).1.policies ∧
    convertToCasbinWildcard "view" = "view" := by
  have h := compile_expands_catalog ⟨[("admin", ⟨[("all", ["view"])]⟩)]⟩ ⟨[], []⟩ ⟨[]⟩ ["acme"]
  refine ⟨(h.2.2.1 _).mpr ?_, h.2.2.2.2 "view" (by decide)⟩
  exact ⟨"admin", ⟨[("all", ["view"])]⟩, by decide, "acme", by decide, "all", ["view"],
    by decide, "view", by decide, rfl⟩

/-- C5: ReloadPolicies with an empty tenant list fails with the empty-tenants
error (InvalidArgument per the spec), and every failing ReloadPolicies call
leaves the whole service state — in particular the previously compiled policy
fact set — untouched and queryable exactly as before. -/
theorem reloadPolicies_failure_preserves_facts (svc : CasbinService)
    (tenants : List String) :
    (tenants = [] →
      reloadPolicies svc tenants = (svc, some .emptyTenantsList) ∧
      AuthError.emptyTenantsList.isInvalidArgument = true) ∧
    (∀ e, (reloadPolicies svc tenants).2 = some e →
      (reloadPolicies svc tenants).1 = svc ∧
      ∀ u r a t, canDo (reloadPolicies svc tenants).1 u r a t = canDo svc u r a t) := by
  constructor
  · rintro rfl
    exact ⟨rfl, rfl⟩
  · intro e he
    by_cases hemp : tenants.isEmpty
    · rw [reloadPolicies, if_pos hemp]
      exact ⟨rfl, fun u r a t => rfl⟩
    · rw [reloadPolicies, if_neg hemp] at he ⊢
      rcases h1 : loadPoliciesIntoEnforcer svc.loader svc.enforcer svc.db tenants
        with ⟨enf1, db1, err⟩
      cases err with
      | none =>
        rw [h1] at he
        simp at he
      | some e2 =>
        cases hcfg : svc.loader with
        | some c =>
          exfalso
          obtain ⟨hpair, _, _, _⟩ := loadPolicies_spec c svc.enforcer svc.db tenants
          rw [hcfg] at h1
          rw [h1] at hpair
          have hcontra := congrArg Prod.snd hpair
          simp at hcontra
        | none =>
          rw [hcfg] at h1
          have henf : enf1 = svc.enforcer := (congrArg Prod.fst h1).symm
          have hdb : db1 = svc.db := (congrArg (fun x => x.2.1) h1).symm
          subst enf1
          subst db1
          refine ⟨?_, fun u r a t => rfl⟩
          show ({ enforcer := svc.enforcer, db := svc.db, loader := none } : CasbinService) = svc
          rw [← hcfg]

/-- Witness for C5: reloading with the empty list on a concrete service fails
and leaves the state unchanged. -/
theorem reloadPolicies_failure_preserves_facts_witness :
    reloadPolicies ⟨⟨[["admin", "*", "*", "acme"]], []⟩, ⟨[]⟩, none⟩ [] =
      (⟨⟨[["admin", "*", "*", "acme"]], []⟩, ⟨[]⟩, none⟩, some .emptyTenantsList) ∧
    (reloadPolicies ⟨⟨[["admin", "*", "*", "acme"]], []⟩, ⟨[]⟩, none⟩ []).1 =
      ⟨⟨[["admin", "*", "*", "acme"]], []⟩, ⟨[]⟩, none⟩ := by
  have h := reloadPolicies_failure_preserves_facts
    ⟨⟨[["admin", "*", "*", "acme"]], []⟩, ⟨[]⟩, none⟩ []
  refine ⟨(h.1 rfl).1, (h.2 .emptyTenantsList ?_).1⟩
  rw [(h.1 rfl).1]

end Authz

namespace Authz

lemma saveInserts_preserves (g : List (String × Rule)) :
    ∀ (db : DB) (failIn : Option Nat),
      (∀ p ∈ g, isGroupPtype p.1 = true) → assignmentOnly db →
      assignmentOnly (saveInserts db failIn g).1 := by
  induction g with
  | nil =>
    intro db failIn _ hdb
    exact hdb
  | cons p rest ih =>
    rcases p with ⟨ptype, rule⟩
    intro db failIn hg hdb
    by_cases hfail : failIn = some 0
    · rw [saveInserts, if_pos hfail]
      exact hdb
    · rw [saveInserts, if_neg hfail]
      simp only [insertRoleAssignment]
      by_cases hdup : db.rows.any
          (fun r => decide (rowKey r = rowKey (mkRow ptype rule))) = true
      · simp only [hdup, if_true]
        exact hdb
      · simp only [Bool.not_eq_true] at hdup
        simp only [hdup, Bool.false_eq_true, if_false]
        apply ih _ _ (fun q hq => hg q (List.mem_cons_of_mem _ hq))
        intro row hrow
        rcases List.mem_append.mp hrow with h | h
        · exact hdb row h
        · rw [List.mem_singleton] at h
          subst h
          exact hg (ptype, rule) (List.mem_cons_self _ _)

lemma applyStoreOp_preserves (db : DB) (op : StoreOp)
    (hdb : assignmentOnly db) (hop : op.wellFormed) :
    assignmentOnly (applyStoreOp db op).1 := by
  cases op with
  | add sec ptype rule =>
    by_cases hsec : sec = "g"
    · subst hsec
      simp only [applyStoreOp, adapterAddPolicy, if_pos rfl, insertRoleAssignment]
      by_cases hdup : db.rows.any
          (fun r => decide (rowKey r = rowKey (mkRow ptype rule))) = true
      · simp only [hdup, if_true]
        exact hdb
      · simp only [Bool.not_eq_true] at hdup
        simp only [hdup, Bool.false_eq_true, if_false]
        intro row hrow
        rcases List.mem_append.mp hrow with h | h
        · exact hdb row h
        · rw [List.mem_singleton] at h
          subst h
          exact hop rfl
    · simp only [applyStoreOp, adapterAddPolicy, if_neg hsec]
      exact hdb
  | remove sec ptype rule =>
    by_cases hsec : sec = "g"
    · simp only [applyStoreOp, adapterRemovePolicy, if_pos hsec]
      intro row hrow
      exact hdb row (List.mem_filter.mp hrow).1
    · simp only [applyStoreOp, adapterRemovePolicy, if_neg hsec]
      exact hdb
  | save gSection failIn =>
    by_cases hfail : failIn = some 0
    · simp only [applyStoreOp, savePolicy, if_pos hfail]
      exact hdb
    · simp only [applyStoreOp, savePolicy, if_neg hfail]
      apply saveInserts_preserves gSection _ _ hop
      intro row hrow
      exact hdb row (List.mem_filter.mp hrow).1

lemma runStoreOps_preserves (ops : List StoreOp) :
    ∀ (db : DB), assignmentOnly db → (∀ op ∈ ops, op.wellFormed) →
      assignmentOnly (runStoreOps db ops) := by
  induction ops with
  | nil =>
    intro db hdb _
    exact hdb
  | cons op rest ih =>
    intro db hdb hops
    rw [runStoreOps]
    exact ih _ (applyStoreOp_preserves db op hdb (hops op (List.mem_cons_self _ _)))
      (fun q hq => hops q (List.mem_cons_of_mem _ hq))

/-- C3: the adapter silently ignores (no write, nil error) every store call
whose section is not the grouping section g, and under casbin's calling
convention every sequence of adapter calls starting from an
assignment-rows-only table leaves the durable table holding assignment
(grouping) rows only. -/
theorem store_persists_assignments_only :
    (∀ (db : DB) (sec ptype : String) (rule : Rule), sec ≠ "g" →
      adapterAddPolicy db sec ptype rule = (db, none) ∧
      adapterRemovePolicy db sec ptype rule = (db, none)) ∧
    (∀ (db : DB) (ops : List StoreOp), assignmentOnly db →
      (∀ op ∈ ops, op.wellFormed) → assignmentOnly (runStoreOps db ops)) := by
  constructor
  · intro db sec ptype rule hsec
    rw [adapterAddPolicy, if_neg hsec, adapterRemovePolicy, if_neg hsec]
    exact ⟨rfl, rfl⟩
  · intro db ops hdb hops
    exact runStoreOps_preserves ops db hdb hops

/-- Witness for C3: a non-grouping policy write is a silent no-op, and a
concrete op sequence on the empty table leaves only assignment rows. -/
theorem store_persists_assignments_only_witness :
    adapterAddPolicy ⟨[]⟩ "p" "p" ["admin", "*", "*", "acme"] = (⟨[]⟩, none) ∧
    assignmentOnly (runStoreOps ⟨[]⟩
      [.add "p" "p" ["admin", "*", "*", "acme"], .add "g" "g" ["u1", "admin", "acme"]]) := by
  constructor
  · exact (store_persists_assignments_only.1 ⟨[]⟩ "p" "p" ["admin", "*", "*", "acme"]
      (by decide)).1
  · apply store_persists_assignments_only.2 ⟨[]⟩
    · intro row hrow
      simp at hrow
    · intro op hop
      rcases List.mem_cons.mp hop with rfl | hop2
      · intro hcontra
        exact absurd hcontra (by decide)
      · rw [List.mem_singleton] at hop2
        subst hop2
        exact fun _ => rfl

end Authz

namespace Authz

lemma saveInserts_partial (g : List (String × Rule)) :
    ∀ (db : DB) (j : Nat),
      (∀ p ∈ g, ∀ row ∈ db.rows, rowKey row ≠ rowKey (mkRow p.1 p.2)) →
      ((g.map fun p => rowKey (mkRow p.1 p.2)).Nodup) →
      j < g.length →
      saveInserts db (some j) g =
        (⟨db.rows ++ (g.take j).map (fun p => mkRow p.1 p.2)⟩,
         some (.storage "failed to save role assignment")) := by
  induction g with
  | nil =>
    intro db j _ _ hj
    simp at hj
  | cons p rest ih =>
    rcases p with ⟨ptype, rule⟩
    intro db j hcoll hnd hj
    rcases j with _ | j
    · rw [saveInserts, if_pos rfl]
      simp
    · have hne : (some (j + 1) : Option Nat) ≠ some 0 := by simp
      rw [saveInserts, if_neg hne]
      have hnocoll : db.rows.any
          (fun r => decide (rowKey r = rowKey (mkRow ptype rule))) = false := by
        rw [List.any_eq_false]
        intro r hr
        simp only [decide_eq_true_eq]
        exact hcoll (ptype, rule) (List.mem_cons_self _ _) r hr
      simp only [insertRoleAssignment, hnocoll, Bool.false_eq_true, if_false]
      rw [List.map_cons, List.nodup_cons] at hnd
      have hcoll2 : ∀ q ∈ rest, ∀ row ∈ (⟨db.rows ++ [mkRow ptype rule]⟩ : DB).rows,
          rowKey row ≠ rowKey (mkRow q.1 q.2) := by
        intro q hq row hrow
        rcases List.mem_append.mp hrow with h | h
        · exact hcoll q (List.mem_cons_of_mem _ hq) row h
        · rw [List.mem_singleton] at h
          subst h
          intro heq
          exact hnd.1 (heq ▸ List.mem_map_of_mem (fun p => rowKey (mkRow p.1 p.2)) hq)
      have hj2 : j < rest.length := Nat.lt_of_succ_lt_succ hj
      have hmap : (some (j + 1) : Option Nat).map (· - 1) = some j := by simp
      rw [hmap, ih ⟨db.rows ++ [mkRow ptype rule]⟩ j hcoll2 hnd.2 hj2]
      simp [List.take_succ_cons, List.append_assoc]

/-- C4 (counterexample): the claim that a failing Save leaves the durable
store exactly as it was before the call is false — a concrete run whose
second INSERT fails leaves the old assignment rows deleted and only the first
new row inserted. -/
theorem savePolicy_not_transactional_cex :
    ¬ (∀ (db : DB) (g : List (String × Rule)) (failIn : Option Nat),
        (savePolicy db g failIn).2.isSome = true → (savePolicy db g failIn).1 = db) := by
  intro h
  have h2 := h (DB.mk [mkRow "g" ["u1", "admin", "acme"]])
    [("g", ["u2", "editor", "acme"]), ("g", ["u3", "editor", "acme"])] (some 2)
    (by decide)
  exact absurd h2 (by decide)

/-- C4 (amended): SavePolicy issues its DELETE and each INSERT as separate
statements with no enclosing transaction.  When the DELETE itself fails the
prior durable state is retained, but when the (j+1)-th statement (the j-th
INSERT) fails, the store is left with every prior assignment row deleted and
exactly the first j new rows inserted — a partial wipe is observable. -/
theorem savePolicy_failure_states (db : DB) (g : List (String × Rule)) (j : Nat)
    (hgp : ∀ p ∈ g, isGroupPtype p.1 = true)
    (hnd : (g.map fun p => rowKey (mkRow p.1 p.2)).Nodup)
    (hj : j < g.length) :
    savePolicy db g (some 0) =
      (db, some (.storage "failed to clear existing role assignments")) ∧
    savePolicy db g (some (j + 1)) =
      (⟨(deleteGroupRows db).rows ++ (g.take j).map (fun p => mkRow p.1 p.2)⟩,
       some (.storage "failed to save role assignment")) := by
  constructor
  · rw [savePolicy, if_pos rfl]
  · have hne : (some (j + 1) : Option Nat) ≠ some 0 := by simp
    rw [savePolicy, if_neg hne]
    have hmap : (some (j + 1) : Option Nat).map (· - 1) = some j := by simp
    rw [hmap]
    apply saveInserts_partial g (deleteGroupRows db) j ?_ hnd hj
    intro p hp row hrow
    have hrowg : isGroupPtype row.ptype = false := by
      have := (List.mem_filter.mp hrow).2
      simpa using this
    intro heq
    have hpt : row.ptype = p.1 := congrArg Prod.fst heq
    rw [hpt] at hrowg
    rw [hgp p hp] at hrowg
    exact absurd hrowg (by simp)

/-- Witness for C4 (amended): the concrete partial-wipe run. -/
theorem savePolicy_failure_states_witness :
    savePolicy (DB.mk [mkRow "g" ["u1", "admin", "acme"]])
      [("g", ["u2", "editor", "acme"]), ("g", ["u3", "editor", "acme"])] (some 2) =
      (⟨[mkRow "g" ["u2", "editor", "acme"]]⟩,
       some (.storage "failed to save role assignment")) := by
  have h := savePolicy_failure_states (DB.mk [mkRow "g" ["u1", "admin", "acme"]])
    [("g", ["u2", "editor", "acme"]), ("g", ["u3", "editor", "acme"])] 1
    (by decide) (by decide) (by decide)
  rw [h.2]
  decide

end Authz

namespace Authz

/-- C6: AssignRole is idempotent — starting from a state holding neither the
in-memory grouping nor a durable row for the triple, the first call reports
newly added and succeeds, the second call reports already existed, succeeds
without any constraint error, changes nothing, and the durable store holds
exactly one row for the triple. -/
theorem assignRole_idempotent (svc : CasbinService) (u role t : String)
    (hu : u ≠ "") (hr : role ≠ "") (ht : t ≠ "")
    (hcat : role ∈ getRoles svc.loader)
    (hmem : [u, role, t] ∉ svc.enforcer.groupings)
    (hdb : ∀ row ∈ svc.db.rows, rowKey row ≠ ("g", u, role, t, "")) :
    (assignRole svc u role t).2.1 = true ∧
    (assignRole svc u role t).2.2 = none ∧
    (assignRole (assignRole svc u role t).1 u role t).2.1 = false ∧
    (assignRole (assignRole svc u role t).1 u role t).2.2 = none ∧
    (assignRole (assignRole svc u role t).1 u role t).1 = (assignRole svc u role t).1 ∧
    ((assignRole (assignRole svc u role t).1 u role t).1.db.rows.filter
        (fun row => decide (rowKey row = ("g", u, role, t, "")))).length = 1 := by
  have hval : ¬(u = "" ∨ role = "" ∨ t = "") := by
    push_neg
    exact ⟨hu, hr, ht⟩
  have hkey : rowKey (mkRow "g" [u, role, t]) = ("g", u, role, t, "") := rfl
  have hany : svc.db.rows.any
      (fun r => decide (rowKey r = rowKey (mkRow "g" [u, role, t]))) = false := by
    rw [List.any_eq_false]
    intro r hrmem
    simp only [decide_eq_true_eq, hkey]
    exact hdb r hrmem
  have hadd : addGroupingPolicy svc.enforcer svc.db [u, role, t] =
      (true, { svc.enforcer with groupings := svc.enforcer.groupings ++ [[u, role, t]] },
       ⟨svc.db.rows ++ [mkRow "g" [u, role, t]]⟩, none) := by
    rw [addGroupingPolicy, if_neg hmem, adapterAddPolicy, if_pos rfl, insertRoleAssignment]
    simp only [hany, Bool.false_eq_true, if_false]
  have h1 : assignRole svc u role t =
      ({ svc with
          enforcer := { svc.enforcer with
            groupings := svc.enforcer.groupings ++ [[u, role, t]] },
          db := ⟨svc.db.rows ++ [mkRow "g" [u, role, t]]⟩ }, true, none) := by
    rw [assignRole, if_neg hval, if_pos hcat, hadd]
  have hmem2 : [u, role, t] ∈ svc.enforcer.groupings ++ [[u, role, t]] :=
    List.mem_append_right _ (List.mem_singleton.mpr rfl)
  have hadd2 : addGroupingPolicy
      { svc.enforcer with groupings := svc.enforcer.groupings ++ [[u, role, t]] }
      (⟨svc.db.rows ++ [mkRow "g" [u, role, t]]⟩ : DB) [u, role, t] =
      (false, { svc.enforcer with groupings := svc.enforcer.groupings ++ [[u, role, t]] },
       ⟨svc.db.rows ++ [mkRow "g" [u, role, t]]⟩, none) := by
    rw [addGroupingPolicy, if_pos hmem2]
  have h2 : assignRole ({ svc with
          enforcer := { svc.enforcer with
            groupings := svc.enforcer.groupings ++ [[u, role, t]] },
          db := ⟨svc.db.rows ++ [mkRow "g" [u, role, t]]⟩ } : CasbinService) u role t =
      ({ svc with
          enforcer := { svc.enforcer with
            groupings := svc.enforcer.groupings ++ [[u, role, t]] },
          db := ⟨svc.db.rows ++ [mkRow "g" [u, role, t]]⟩ }, false, none) := by
    rw [assignRole, if_neg hval, if_pos hcat, hadd2]
  rw [h1]
  have hfilter : (svc.db.rows ++ [mkRow "g" [u, role, t]]).filter
      (fun row => decide (rowKey row = ("g", u, role, t, ""))) =
      [mkRow "g" [u, role, t]] := by
    rw [List.filter_append]
    have hnil : svc.db.rows.filter
        (fun row => decide (rowKey row = ("g", u, role, t, ""))) = [] := by
      rw [List.filter_eq_nil_iff]
      intro a ha
      simp only [decide_eq_true_eq]
      exact hdb a ha
    rw [hnil]
    simp [List.filter, hkey]
  refine ⟨rfl, rfl, ?_, ?_, ?_, ?_⟩
  · rw [h2]
  · rw [h2]
  · rw [h2]
  · rw [h2]
    show ((svc.db.rows ++ [mkRow "g" [u, role, t]]).filter
      (fun row => decide (rowKey row = ("g", u, role, t, "")))).length = 1
    rw [hfilter]
    rfl

/-- Witness for C6: a concrete double assignment yields one stored row,
with the second call reporting already existed and no error. -/
theorem assignRole_idempotent_witness :
    (assignRole ⟨⟨[], []⟩, ⟨[]⟩, some ⟨[("admin", ⟨[("all", ["all"])]⟩)]⟩⟩
        "u1" "admin" "acme").2.1 = true ∧
    (assignRole (assignRole ⟨⟨[], []⟩, ⟨[]⟩, some ⟨[("admin", ⟨[("all", ["all"])]⟩)]⟩⟩
        "u1" "admin" "acme").1 "u1" "admin" "acme").2.1 = false ∧
    (assignRole (assignRole ⟨⟨[], []⟩, ⟨[]⟩, some ⟨[("admin", ⟨[("all", ["all"])]⟩)]⟩⟩
        "u1" "admin" "acme").1 "u1" "admin" "acme").2.2 = none ∧
    ((assignRole (assignRole ⟨⟨[], []⟩, ⟨[]⟩, some ⟨[("admin", ⟨[("all", ["all"])]⟩)]⟩⟩
        "u1" "admin" "acme").1 "u1" "admin" "acme").1.db.rows.filter
      (fun row => decide (rowKey row = ("g", "u1", "admin", "acme", "")))).length = 1 := by
  have h := assignRole_idempotent ⟨⟨[], []⟩, ⟨[]⟩, some ⟨[("admin", ⟨[("all", ["all"])]⟩)]⟩⟩
    "u1" "admin" "acme" (by decide) (by decide) (by decide) (by decide)
    (by decide) (by intro row hrow; simp at hrow)
  exact ⟨h.1, h.2.2.1, h.2.2.2.1, h.2.2.2.2.2⟩

end Authz
